import Mathlib

/-!
Verification of the asynchronous transaction-processing engine of the
go_bank_api repository (Go sources: `main.go`, `transaction_consumer.go`,
`transaction_queue.go`, `models/models.go`).

Shallow embedding choices:
* Go `float64` money values are modelled as exact rationals `ℚ`; every balance
  in the claims is a small value on which `float64` arithmetic is exact.
* The PostgreSQL `users` table is modelled as an association list from
  `account_id` to balance.  `SELECT balance ... WHERE account_id = $1` returns
  the first matching row (`sql.ErrNoRows` becomes `none`), and
  `UPDATE users SET balance = $1 WHERE account_id = $2` rewrites every matching
  row and reports no error when no row matches, exactly as `database/sql` does.
* The MongoDB `transactions` collection is an append-only list of
  `TransactionLog` records.  MongoDB writes are NOT part of the SQL
  transaction, so in the model they survive a later SQL rollback.
* `InsertOne` and `tx.Commit` are fallible in Go; the flags `ins1Ok`, `ins2Ok`
  and `commitOk` of `processTransactionF` model which of those calls succeed.
  `processTransaction` is the run in which all of them succeed.
* `created_at` timestamps and Mongo object ids play no role in any claim and
  are omitted from the `TransactionLog` record.
-/

namespace GoBankApi

/-- Wire message consumed from RabbitMQ, `QueuedTransaction` in
`transaction_queue.go` (`account_id`, `from_account_id`, `to_account_id`,
`type`, `amount`).  The Go field `Type` is rendered `ttype` because `Type` is
not a usable field name in Lean. -/
structure QueuedTransaction where
  accountID : String := ""
  fromAccountID : String := ""
  toAccountID : String := ""
  ttype : String := ""
  amount : ℚ := 0
deriving DecidableEq, Repr

/-- MongoDB ledger record, `TransactionLog` in `main.go` / `models/models.go`
(`account_id`, `from_account_id`, `to_account_id`, `type`, `amount`,
`current_balance`; `_id` and `created_at` are irrelevant to the claims and
omitted). -/
structure TransactionLog where
  accountID : String := ""
  fromAccountID : String := ""
  toAccountID : String := ""
  ttype : String := ""
  amount : ℚ := 0
  currentBalance : ℚ := 0
deriving DecidableEq, Repr

/-- Combined persistent state: the PostgreSQL `users` table (pairs
`(account_id, balance)`) and the MongoDB `transactions` collection. -/
structure Bank where
  accounts : List (String × ℚ)
  ledger : List TransactionLog
deriving DecidableEq, Repr

/-- `SELECT balance FROM users WHERE account_id = $1`: first matching row,
`none` for `sql.ErrNoRows`. -/
def getBalance : List (String × ℚ) → String → Option ℚ
  | [], _ => none
  | (a, b) :: rest, id => if a = id then some b else getBalance rest id

/-- `UPDATE users SET balance = $1 WHERE account_id = $2`: rewrites every row
whose key matches; affecting zero rows is not an error. -/
def setBalance : List (String × ℚ) → String → ℚ → List (String × ℚ)
  | [], _, _ => []
  | (a, b) :: rest, id, v =>
    (if a = id then (a, v) else (a, b)) :: setBalance rest id v

/-- Sum of all stored balances, the quantity of the conservation claim. -/
def totalBalance (accs : List (String × ℚ)) : ℚ :=
  (accs.map Prod.snd).sum

/-- The `switch qt.Type` block of `processTransaction`
(`transaction_consumer.go`): computes `newBalance` and the updated
`toAccountBalance`.  Only the `withdrawal` arm checks for insufficient
balance; the `transfer` arm debits unconditionally and adds `qt.Amount` to
`toAccountBalance`; any other type is `invalid transaction type`. -/
def mutate (qt : QueuedTransaction) (currentBalance toAccountBalance : ℚ) :
    Except String (ℚ × ℚ) :=
  if qt.ttype = "deposit" then
    .ok (currentBalance + qt.amount, toAccountBalance)
  else if qt.ttype = "withdrawal" then
    if currentBalance < qt.amount then .error "insufficient balance"
    else .ok (currentBalance - qt.amount, toAccountBalance)
  else if qt.ttype = "transfer" then
    .ok (currentBalance - qt.amount, toAccountBalance + qt.amount)
  else .error "invalid transaction type"

/-- The `TransactionLog` literal built in `processTransaction`: for a
transfer, `AccountID` is first set to `FromAccountID` and both endpoint ids
are recorded; otherwise only `AccountID` is set.  In both cases
`CurrentBalance` is `newBalance`, the balance of the (source) account read
with `FOR UPDATE`. -/
def mkLog (qt : QueuedTransaction) (newBalance : ℚ) : TransactionLog :=
  if qt.ttype = "transfer" then
    { accountID := qt.fromAccountID, fromAccountID := qt.fromAccountID,
      toAccountID := qt.toAccountID, ttype := qt.ttype, amount := qt.amount,
      currentBalance := newBalance }
  else
    { accountID := qt.accountID, ttype := qt.ttype, amount := qt.amount,
      currentBalance := newBalance }

/-- `processTransaction` of `transaction_consumer.go`, with explicit success
flags for the two `mongoCollection.InsertOne` calls and for `tx.Commit`.

The SQL work (`SELECT ... FOR UPDATE`, the destination `SELECT`, the one or
two `UPDATE`s) happens inside `tx`; on every error return the deferred
`tx.Rollback()` discards the balance updates, so the resulting `accounts` are
the original ones.  The Mongo inserts are outside `tx`: an entry inserted
before a later failure stays in the ledger.  Result: the post state and
`none` on success, or `some errorMessage`. -/
def processTransactionF (bank : Bank) (qt : QueuedTransaction)
    (ins1Ok ins2Ok commitOk : Bool) : Bank × Option String :=
  let account_id := if qt.ttype = "transfer" then qt.fromAccountID else qt.accountID
  match getBalance bank.accounts account_id with
  | none => (bank, some "sql: no rows in result set")
  | some currentBalance =>
    match (if qt.ttype = "transfer" then getBalance bank.accounts qt.toAccountID
           else some 0) with
    | none => (bank, some "sql: no rows in result set")
    | some toBalRead =>
      match mutate qt currentBalance toBalRead with
      | .error e => (bank, some e)
      | .ok (newBalance, toAccountBalance) =>
        let accs1 := setBalance bank.accounts account_id newBalance
        let accs2 := if qt.ttype = "transfer" then
            setBalance accs1 qt.toAccountID toAccountBalance
          else accs1
        let log1 := mkLog qt newBalance
        if ins1Ok then
          let ledger1 := bank.ledger ++ [log1]
          if qt.ttype = "transfer" then
            if ins2Ok then
              let ledger2 := ledger1 ++ [{ log1 with accountID := qt.toAccountID }]
              if commitOk then ({ accounts := accs2, ledger := ledger2 }, none)
              else ({ accounts := bank.accounts, ledger := ledger2 },
                    some "commit failed")
            else ({ accounts := bank.accounts, ledger := ledger1 },
                  some "ledger insert failed")
          else
            if commitOk then ({ accounts := accs2, ledger := ledger1 }, none)
            else ({ accounts := bank.accounts, ledger := ledger1 },
                  some "commit failed")
        else ({ accounts := bank.accounts, ledger := bank.ledger },
              some "ledger insert failed")

/-- `processTransaction` in the run where both Mongo inserts and the commit
succeed: the only run in which the function returns `nil`. -/
def processTransaction (bank : Bank) (qt : QueuedTransaction) :
    Bank × Option String :=
  processTransactionF bank qt true true true

/-- How the consumer loop in `Start` (`transaction_consumer.go`) resolves one
delivered message: `d.Ack(false)` or `d.Nack(false, true)` (reject with
requeue). -/
inductive AckResolution
  | ack
  | nackRequeue
deriving DecidableEq, Repr

/-- One iteration of the consumer loop in `Start`: `json.Unmarshal` failure is
modelled as `decoded = none` and causes `Nack(false, true)`; a
`processTransaction` error also causes `Nack(false, true)`; otherwise the
message is acknowledged.  The returned `Bank` is the state after the
iteration (on error the SQL part was rolled back inside `processTransaction`
but Mongo writes made before the failure persist). -/
def handleDelivery (bank : Bank) (decoded : Option QueuedTransaction)
    (ins1Ok ins2Ok commitOk : Bool) : Bank × AckResolution :=
  match decoded with
  | none => (bank, .nackRequeue)
  | some qt =>
    match processTransactionF bank qt ins1Ok ins2Ok commitOk with
    | (bank', none) => (bank', .ack)
    | (bank', some _) => (bank', .nackRequeue)

/-- HTTP outcome of the `POST /transaction` handler in `main.go`. -/
inductive HttpResult
  | badRequest (msg : String)
  | notFound (msg : String)
  | accepted
deriving DecidableEq, Repr

/-- The `POST /transaction` closure in `main.go`, after a successful JSON
bind.  Returns the HTTP outcome and whether the message was published to the
queue.  Checks, in source order: `account_id` required unless transfer;
`amount > 0`; known type; a first existence query keyed on `account_id` for
deposits but on `to_account_id` for every other type; for withdrawal/transfer
a second existence query (`account_id` resp. `from_account_id`) followed by
the insufficient-balance check; then publish.  `PublishTransaction` is
assumed to succeed (broker faults are outside the claims). -/
def postTransaction (bank : Bank) (qt : QueuedTransaction) :
    HttpResult × Bool :=
  if qt.accountID = "" ∧ qt.ttype ≠ "transfer" then
    (.badRequest "account_id is required", false)
  else if qt.amount ≤ 0 then
    (.badRequest "amount must be greater than 0", false)
  else if qt.ttype ≠ "deposit" ∧ qt.ttype ≠ "withdrawal" ∧ qt.ttype ≠ "transfer" then
    (.badRequest "invalid transaction type", false)
  else
    let firstId := if qt.ttype = "deposit" then qt.accountID else qt.toAccountID
    match getBalance bank.accounts firstId with
    | none => (.notFound "Account not found", false)
    | some _ =>
      if qt.ttype = "withdrawal" ∨ qt.ttype = "transfer" then
        let secondId := if qt.ttype = "withdrawal" then qt.accountID else qt.fromAccountID
        match getBalance bank.accounts secondId with
        | none => (.notFound "Account not found", false)
        | some currentBalance =>
          if currentBalance < qt.amount then
            (.badRequest "Insufficient balance", false)
          else (.accepted, true)
      else (.accepted, true)

/-- Processing of a whole sequence of queued instructions in which every
instruction commits successfully: `some` of the final state, or `none` as
soon as one `processTransaction` call errors. -/
def processSeqOk (bank : Bank) : List QueuedTransaction → Option Bank
  | [] => some bank
  | qt :: rest =>
    match processTransaction bank qt with
    | (bank', none) => processSeqOk bank' rest
    | (_, some _) => none

/-- Signed contribution of one instruction to the total of all balances, the
measure used by the conservation claim: deposits add their amount,
withdrawals subtract it, transfers contribute nothing. -/
def netAmount (qt : QueuedTransaction) : ℚ :=
  if qt.ttype = "deposit" then qt.amount
  else if qt.ttype = "withdrawal" then -qt.amount
  else 0

/-- Net deposits minus net withdrawals over a sequence of instructions. -/
def netAmounts (qts : List QueuedTransaction) : ℚ :=
  (qts.map netAmount).sum

/-- All stored balances of a state are non-negative. -/
def NonNeg (bank : Bank) : Prop :=
  ∀ p ∈ bank.accounts, 0 ≤ p.2

instance (bank : Bank) : Decidable (NonNeg bank) := by
  unfold NonNeg; infer_instance

/-! Lemmas about the `users`-table model. -/

theorem getBalance_cons (a : String) (b0 : ℚ) (rest : List (String × ℚ))
    (id : String) :
    getBalance ((a, b0) :: rest) id =
      if a = id then some b0 else getBalance rest id := rfl

theorem setBalance_cons (a : String) (b0 : ℚ) (rest : List (String × ℚ))
    (id : String) (v : ℚ) :
    setBalance ((a, b0) :: rest) id v =
      (if a = id then (a, v) else (a, b0)) :: setBalance rest id v := rfl

theorem getBalance_setBalance_self (accs : List (String × ℚ)) (id : String)
    (v b : ℚ) (h : getBalance accs id = some b) :
    getBalance (setBalance accs id v) id = some v := by
  induction accs with
  | nil => simp [getBalance] at h
  | cons p rest ih =>
    obtain ⟨a, b0⟩ := p
    by_cases hp : a = id
    · rw [setBalance_cons, if_pos hp, getBalance_cons, if_pos hp]
    · rw [getBalance_cons, if_neg hp] at h
      rw [setBalance_cons, if_neg hp, getBalance_cons, if_neg hp]
      exact ih h

theorem getBalance_setBalance_ne (accs : List (String × ℚ)) (id id' : String)
    (v : ℚ) (h : id ≠ id') :
    getBalance (setBalance accs id' v) id = getBalance accs id := by
  induction accs with
  | nil => simp [getBalance, setBalance]
  | cons p rest ih =>
    obtain ⟨a, b0⟩ := p
    by_cases hp : a = id'
    · have ha : a ≠ id := fun hc => h (hc.symm.trans hp)
      rw [setBalance_cons, if_pos hp, getBalance_cons, getBalance_cons,
        if_neg ha, if_neg ha]
      exact ih
    · rw [setBalance_cons, if_neg hp, getBalance_cons, getBalance_cons]
      by_cases ha : a = id
      · rw [if_pos ha, if_pos ha]
      · rw [if_neg ha, if_neg ha]
        exact ih

theorem setBalance_keys (accs : List (String × ℚ)) (id : String) (v : ℚ) :
    (setBalance accs id v).map Prod.fst = accs.map Prod.fst := by
  induction accs with
  | nil => rfl
  | cons p rest ih =>
    obtain ⟨a, b0⟩ := p
    by_cases hp : a = id
    · rw [setBalance_cons, if_pos hp, List.map_cons, List.map_cons, ih]
    · rw [setBalance_cons, if_neg hp, List.map_cons, List.map_cons, ih]

theorem setBalance_not_mem (accs : List (String × ℚ)) (id : String) (v : ℚ)
    (h : id ∉ accs.map Prod.fst) : setBalance accs id v = accs := by
  induction accs with
  | nil => rfl
  | cons p rest ih =>
    obtain ⟨a, b0⟩ := p
    simp only [List.map_cons, List.mem_cons] at h
    push_neg at h
    rw [setBalance_cons, if_neg (fun hc => h.1 hc.symm), ih h.2]

theorem setBalance_nonneg (accs : List (String × ℚ)) (id : String) (v : ℚ)
    (hnn : ∀ p ∈ accs, 0 ≤ p.2) (hv : 0 ≤ v) :
    ∀ p ∈ setBalance accs id v, 0 ≤ p.2 := by
  induction accs with
  | nil => simp [setBalance]
  | cons q rest ih =>
    obtain ⟨a, b0⟩ := q
    intro p hp
    rw [setBalance_cons] at hp
    rcases List.mem_cons.mp hp with hp | hp
    · by_cases ha : a = id
      · rw [if_pos ha] at hp
        rw [hp]
        exact hv
      · rw [if_neg ha] at hp
        rw [hp]
        exact hnn (a, b0) (List.mem_cons_self _ _)
    · exact ih (fun q hq => hnn q (List.mem_cons_of_mem _ hq)) p hp

theorem getBalance_nonneg (accs : List (String × ℚ)) (id : String) (b : ℚ)
    (hnn : ∀ p ∈ accs, 0 ≤ p.2) (h : getBalance accs id = some b) : 0 ≤ b := by
  induction accs with
  | nil => simp [getBalance] at h
  | cons p rest ih =>
    obtain ⟨a, b0⟩ := p
    rw [getBalance_cons] at h
    by_cases ha : a = id
    · rw [if_pos ha] at h
      obtain rfl : b0 = b := Option.some.inj h
      exact hnn (a, b0) (List.mem_cons_self _ _)
    · rw [if_neg ha] at h
      exact ih (fun q hq => hnn q (List.mem_cons_of_mem _ hq)) h

theorem totalBalance_setBalance (accs : List (String × ℚ)) (id : String)
    (v b : ℚ) (hnd : (accs.map Prod.fst).Nodup)
    (h : getBalance accs id = some b) :
    totalBalance (setBalance accs id v) = totalBalance accs - b + v := by
  induction accs with
  | nil => simp [getBalance] at h
  | cons p rest ih =>
    obtain ⟨a, b0⟩ := p
    simp only [List.map_cons, List.nodup_cons] at hnd
    rw [getBalance_cons] at h
    by_cases ha : a = id
    · rw [if_pos ha] at h
      obtain rfl : b0 = b := Option.some.inj h
      subst ha
      rw [setBalance_cons, if_pos rfl, setBalance_not_mem rest a v hnd.1]
      simp only [totalBalance, List.map_cons, List.sum_cons]
      ring
    · rw [if_neg ha] at h
      rw [setBalance_cons, if_neg ha]
      have hrec := ih hnd.2 h
      simp only [totalBalance, List.map_cons, List.sum_cons] at hrec ⊢
      rw [hrec]
      ring

/-! Shape lemmas for `processTransaction`: one per branch of the Go code. -/

theorem processTransaction_no_account (bank : Bank) (qt : QueuedTransaction)
    (hb : getBalance bank.accounts
      (if qt.ttype = "transfer" then qt.fromAccountID else qt.accountID) = none) :
    processTransaction bank qt = (bank, some "sql: no rows in result set") := by
  simp [processTransaction, processTransactionF, hb]

theorem processTransaction_no_dest (bank : Bank) (qt : QueuedTransaction)
    (b : ℚ) (hty : qt.ttype = "transfer")
    (hb : getBalance bank.accounts qt.fromAccountID = some b)
    (hbTo : getBalance bank.accounts qt.toAccountID = none) :
    processTransaction bank qt = (bank, some "sql: no rows in result set") := by
  simp [processTransaction, processTransactionF, hty, hb, hbTo]

theorem processTransaction_invalid_type (bank : Bank) (qt : QueuedTransaction)
    (h1 : qt.ttype ≠ "deposit") (h2 : qt.ttype ≠ "withdrawal")
    (h3 : qt.ttype ≠ "transfer") :
    (processTransaction bank qt).2.isSome := by
  cases hb : getBalance bank.accounts qt.accountID with
  | none =>
    rw [processTransaction_no_account bank qt (by simp [h3, hb])]
    rfl
  | some b =>
    simp [processTransaction, processTransactionF, mutate, h1, h2, h3, hb]

theorem processTransaction_deposit_eq (bank : Bank) (qt : QueuedTransaction)
    (b : ℚ) (hty : qt.ttype = "deposit")
    (hb : getBalance bank.accounts qt.accountID = some b) :
    processTransaction bank qt =
      ({ accounts := setBalance bank.accounts qt.accountID (b + qt.amount),
         ledger := bank.ledger ++ [mkLog qt (b + qt.amount)] }, none) := by
  simp [processTransaction, processTransactionF, mutate, hty, hb]

theorem processTransaction_withdrawal_insufficient (bank : Bank)
    (qt : QueuedTransaction) (b : ℚ) (hty : qt.ttype = "withdrawal")
    (hb : getBalance bank.accounts qt.accountID = some b)
    (hlt : b < qt.amount) :
    processTransaction bank qt = (bank, some "insufficient balance") := by
  simp [processTransaction, processTransactionF, mutate, hty, hb, hlt]

theorem processTransaction_withdrawal_ok (bank : Bank)
    (qt : QueuedTransaction) (b : ℚ) (hty : qt.ttype = "withdrawal")
    (hb : getBalance bank.accounts qt.accountID = some b)
    (hge : ¬ b < qt.amount) :
    processTransaction bank qt =
      ({ accounts := setBalance bank.accounts qt.accountID (b - qt.amount),
         ledger := bank.ledger ++ [mkLog qt (b - qt.amount)] }, none) := by
  simp [processTransaction, processTransactionF, mutate, hty, hb, hge]

theorem processTransaction_transfer_eq (bank : Bank) (qt : QueuedTransaction)
    (b bTo : ℚ) (hty : qt.ttype = "transfer")
    (hb : getBalance bank.accounts qt.fromAccountID = some b)
    (hbTo : getBalance bank.accounts qt.toAccountID = some bTo) :
    processTransaction bank qt =
      ({ accounts := setBalance
           (setBalance bank.accounts qt.fromAccountID (b - qt.amount))
           qt.toAccountID (bTo + qt.amount),
         ledger := bank.ledger ++
           [mkLog qt (b - qt.amount),
            { mkLog qt (b - qt.amount) with accountID := qt.toAccountID }] },
       none) := by
  simp [processTransaction, processTransactionF, mutate, hty, hb, hbTo]

/-- On every error return of `processTransaction` the deferred `tx.Rollback()`
undoes the balance `UPDATE`s: the stored balances are the original ones. -/
theorem processTransactionF_error_accounts (bank : Bank)
    (qt : QueuedTransaction) (i1 i2 c : Bool)
    (h : (processTransactionF bank qt i1 i2 c).2.isSome) :
    (processTransactionF bank qt i1 i2 c).1.accounts = bank.accounts := by
  revert h
  simp only [processTransactionF]
  repeat' split
  all_goals simp

/-- The MongoDB collection is outside the SQL transaction: whatever the
outcome, the new ledger is the old one plus the entries inserted before the
run ended; inserted entries are never removed by a rollback. -/
theorem processTransactionF_ledger_extends (bank : Bank)
    (qt : QueuedTransaction) (i1 i2 c : Bool) :
    ∃ extra, (processTransactionF bank qt i1 i2 c).1.ledger =
      bank.ledger ++ extra := by
  simp only [processTransactionF]
  repeat' split
  all_goals first
    | exact ⟨[], (List.append_nil _).symm⟩
    | exact ⟨_, rfl⟩
    | exact ⟨_, List.append_assoc _ _ _⟩

/-! Invariant preservation for single committed instructions. -/

/-- A successfully committed deposit or withdrawal with a non-negative amount
preserves non-negativity of every stored balance. -/
theorem processTransaction_ok_nonneg (bank bank' : Bank)
    (qt : QueuedTransaction)
    (hk : qt.ttype = "deposit" ∨ qt.ttype = "withdrawal")
    (hamt : 0 ≤ qt.amount)
    (hnn : ∀ p ∈ bank.accounts, 0 ≤ p.2)
    (h : processTransaction bank qt = (bank', none)) :
    ∀ p ∈ bank'.accounts, 0 ≤ p.2 := by
  rcases hk with hty | hty
  · cases hb : getBalance bank.accounts qt.accountID with
    | none =>
      rw [processTransaction_no_account bank qt (by simp [hty, hb])] at h
      simp at h
    | some b =>
      rw [processTransaction_deposit_eq bank qt b hty hb] at h
      injection h with h1 h2
      subst h1
      exact setBalance_nonneg _ _ _ hnn
        (add_nonneg (getBalance_nonneg _ _ _ hnn hb) hamt)
  · cases hb : getBalance bank.accounts qt.accountID with
    | none =>
      rw [processTransaction_no_account bank qt (by simp [hty, hb])] at h
      simp at h
    | some b =>
      by_cases hlt : b < qt.amount
      · rw [processTransaction_withdrawal_insufficient bank qt b hty hb hlt] at h
        simp at h
      · rw [processTransaction_withdrawal_ok bank qt b hty hb hlt] at h
        injection h with h1 h2
        subst h1
        exact setBalance_nonneg _ _ _ hnn (by linarith [not_lt.mp hlt])

/-- A successfully committed instruction whose transfer endpoints differ
changes the total of all balances by exactly `netAmount`, and preserves
key-uniqueness of the `users` table. -/
theorem processTransaction_ok_total (bank bank' : Bank)
    (qt : QueuedTransaction)
    (hnd : (bank.accounts.map Prod.fst).Nodup)
    (hne : qt.ttype = "transfer" → qt.fromAccountID ≠ qt.toAccountID)
    (h : processTransaction bank qt = (bank', none)) :
    totalBalance bank'.accounts = totalBalance bank.accounts + netAmount qt
    ∧ (bank'.accounts.map Prod.fst).Nodup := by
  by_cases hd : qt.ttype = "deposit"
  · cases hb : getBalance bank.accounts qt.accountID with
    | none =>
      rw [processTransaction_no_account bank qt (by simp [hd, hb])] at h
      simp at h
    | some b =>
      rw [processTransaction_deposit_eq bank qt b hd hb] at h
      injection h with h1 h2
      subst h1
      refine ⟨?_, by rw [setBalance_keys]; exact hnd⟩
      show totalBalance (setBalance bank.accounts qt.accountID (b + qt.amount)) = _
      rw [totalBalance_setBalance _ _ _ b hnd hb]
      simp [netAmount, hd]
      ring
  by_cases hw : qt.ttype = "withdrawal"
  · cases hb : getBalance bank.accounts qt.accountID with
    | none =>
      rw [processTransaction_no_account bank qt (by simp [hw, hb])] at h
      simp at h
    | some b =>
      by_cases hlt : b < qt.amount
      · rw [processTransaction_withdrawal_insufficient bank qt b hw hb hlt] at h
        simp at h
      · rw [processTransaction_withdrawal_ok bank qt b hw hb hlt] at h
        injection h with h1 h2
        subst h1
        refine ⟨?_, by rw [setBalance_keys]; exact hnd⟩
        show totalBalance (setBalance bank.accounts qt.accountID (b - qt.amount)) = _
        rw [totalBalance_setBalance _ _ _ b hnd hb]
        simp [netAmount, hw, hd]
        ring
  by_cases ht : qt.ttype = "transfer"
  · have hne' : qt.fromAccountID ≠ qt.toAccountID := hne ht
    cases hb : getBalance bank.accounts qt.fromAccountID with
    | none =>
      rw [processTransaction_no_account bank qt (by simp [ht, hb])] at h
      simp at h
    | some b =>
      cases hbTo : getBalance bank.accounts qt.toAccountID with
      | none =>
        rw [processTransaction_no_dest bank qt b ht hb hbTo] at h
        simp at h
      | some bTo =>
        rw [processTransaction_transfer_eq bank qt b bTo ht hb hbTo] at h
        injection h with h1 h2
        subst h1
        have hnd1 : (((setBalance bank.accounts qt.fromAccountID
            (b - qt.amount)).map Prod.fst)).Nodup := by
          rw [setBalance_keys]; exact hnd
        refine ⟨?_, by rw [setBalance_keys, setBalance_keys]; exact hnd⟩
        show totalBalance (setBalance (setBalance bank.accounts qt.fromAccountID
          (b - qt.amount)) qt.toAccountID (bTo + qt.amount)) = _
        rw [totalBalance_setBalance _ _ _ bTo hnd1
            (by rw [getBalance_setBalance_ne _ _ _ _ (Ne.symm hne')]; exact hbTo),
          totalBalance_setBalance _ _ _ b hnd hb]
        simp [netAmount, ht, hd, hw]
        ring
  · have := processTransaction_invalid_type bank qt hd hw ht
    rw [h] at this
    simp at this

/-- Sequence version of non-negativity: a run of deposits and withdrawals
with non-negative amounts in which every instruction commits keeps every
balance non-negative. -/
theorem processSeqOk_nonneg (qts : List QueuedTransaction) :
    ∀ bank bank' : Bank,
      (∀ qt ∈ qts, qt.ttype = "deposit" ∨ qt.ttype = "withdrawal") →
      (∀ qt ∈ qts, 0 ≤ qt.amount) →
      (∀ p ∈ bank.accounts, 0 ≤ p.2) →
      processSeqOk bank qts = some bank' →
      ∀ p ∈ bank'.accounts, 0 ≤ p.2 := by
  induction qts with
  | nil =>
    intro bank bank' _ _ hnn h
    simp only [processSeqOk] at h
    obtain rfl := Option.some.inj h
    exact hnn
  | cons qt rest ih =>
    intro bank bank' hk hamt hnn h
    simp only [processSeqOk] at h
    rcases hstep : processTransaction bank qt with ⟨b1, e⟩
    rw [hstep] at h
    cases e with
    | none =>
      exact ih b1 bank'
        (fun q hq => hk q (List.mem_cons_of_mem _ hq))
        (fun q hq => hamt q (List.mem_cons_of_mem _ hq))
        (processTransaction_ok_nonneg bank b1 qt
          (hk qt (List.mem_cons_self _ _)) (hamt qt (List.mem_cons_self _ _))
          hnn hstep)
        h
    | some e => simp at h

/-- Sequence version of conservation: over a fully committed run in which
every transfer has distinct endpoints, the total of all balances moves by
net deposits minus net withdrawals. -/
theorem processSeqOk_total (qts : List QueuedTransaction) :
    ∀ bank bank' : Bank,
      (bank.accounts.map Prod.fst).Nodup →
      (∀ qt ∈ qts, qt.ttype = "transfer" → qt.fromAccountID ≠ qt.toAccountID) →
      processSeqOk bank qts = some bank' →
      totalBalance bank'.accounts = totalBalance bank.accounts + netAmounts qts := by
  induction qts with
  | nil =>
    intro bank bank' _ _ h
    obtain rfl := Option.some.inj h
    simp [netAmounts]
  | cons qt rest ih =>
    intro bank bank' hnd hne h
    simp only [processSeqOk] at h
    rcases hstep : processTransaction bank qt with ⟨b1, e⟩
    rw [hstep] at h
    cases e with
    | none =>
      obtain ⟨htot, hnd1⟩ := processTransaction_ok_total bank b1 qt hnd
        (hne qt (List.mem_cons_self _ _)) hstep
      have hrest := ih b1 bank' hnd1
        (fun q hq => hne q (List.mem_cons_of_mem _ hq)) h
      rw [hrest, htot]
      simp only [netAmounts, List.map_cons, List.sum_cons]
      ring
    | some e => simp at h

/-- Every branch of the `POST /transaction` handler either publishes and
answers 202 Accepted, or rejects without publishing. -/
theorem postTransaction_published_accepted (bank : Bank)
    (qt : QueuedTransaction) :
    postTransaction bank qt = (HttpResult.accepted, true) ∨
    (postTransaction bank qt).2 = false := by
  unfold postTransaction
  repeat' split
  all_goals
    cases hA : getBalance bank.accounts qt.accountID <;>
    cases hT : getBalance bank.accounts qt.toAccountID <;>
    cases hF : getBalance bank.accounts qt.fromAccountID
  all_goals simp [hA, hT, hF]
  all_goals (split <;> simp_all [not_lt])

/-! Claim theorems. -/

/-- C1 (amended): non-negativity holds for every fully committed run of
deposits and withdrawals with non-negative amounts — the withdrawal branch
of `processTransaction` enforces it.  It does NOT hold for transfers, whose
branch has no insufficiency check (see the counterexample): a committed
transfer can drive the source balance negative. -/
theorem nonneg_no_transfer_invariant (bank bank' : Bank)
    (qts : List QueuedTransaction)
    (hk : ∀ qt ∈ qts, qt.ttype = "deposit" ∨ qt.ttype = "withdrawal")
    (hamt : ∀ qt ∈ qts, 0 ≤ qt.amount)
    (hnn : NonNeg bank)
    (h : processSeqOk bank qts = some bank') : NonNeg bank' :=
  processSeqOk_nonneg qts bank bank' hk hamt hnn h

/-- C2 (amended): `processTransaction` performs no insufficiency check for
transfers.  Whatever the relation between the source balance `b` and the
amount, a transfer between two distinct existing accounts commits, debits the
source by the amount and credits the destination by the amount. -/
theorem transfer_no_insufficiency_check (bank : Bank)
    (qt : QueuedTransaction) (b bTo : ℚ) (hty : qt.ttype = "transfer")
    (hne : qt.fromAccountID ≠ qt.toAccountID)
    (hb : getBalance bank.accounts qt.fromAccountID = some b)
    (hbTo : getBalance bank.accounts qt.toAccountID = some bTo) :
    (processTransaction bank qt).2 = none ∧
    getBalance (processTransaction bank qt).1.accounts qt.fromAccountID =
      some (b - qt.amount) ∧
    getBalance (processTransaction bank qt).1.accounts qt.toAccountID =
      some (bTo + qt.amount) := by
  rw [processTransaction_transfer_eq bank qt b bTo hty hb hbTo]
  refine ⟨rfl, ?_, ?_⟩
  · rw [getBalance_setBalance_ne _ _ _ _ hne]
    exact getBalance_setBalance_self _ _ _ _ hb
  · exact getBalance_setBalance_self _ _ _ _
      (by rw [getBalance_setBalance_ne _ _ _ _ (Ne.symm hne)]; exact hbTo)

/-- C3: withdrawal semantics.  If the stored balance is below the amount the
call fails with `insufficient balance` and the state is untouched (rollback:
no balance change, no ledger write); otherwise it commits, the new balance is
the old one minus the amount, and exactly one ledger entry recording the
resulting balance is appended. -/
theorem withdrawal_semantics (bank : Bank) (qt : QueuedTransaction) (b : ℚ)
    (hty : qt.ttype = "withdrawal")
    (hb : getBalance bank.accounts qt.accountID = some b) :
    (b < qt.amount →
      processTransaction bank qt = (bank, some "insufficient balance"))
    ∧ (¬ b < qt.amount →
      (processTransaction bank qt).2 = none ∧
      getBalance (processTransaction bank qt).1.accounts qt.accountID =
        some (b - qt.amount) ∧
      (processTransaction bank qt).1.ledger = bank.ledger ++
        [{ accountID := qt.accountID, ttype := "withdrawal",
           amount := qt.amount, currentBalance := b - qt.amount }]) := by
  constructor
  · intro hlt
    exact processTransaction_withdrawal_insufficient bank qt b hty hb hlt
  · intro hge
    rw [processTransaction_withdrawal_ok bank qt b hty hb hge]
    refine ⟨rfl, getBalance_setBalance_self _ _ _ _ hb, ?_⟩
    simp [mkLog, hty]

/-- C4 (amended): conservation holds for fully committed runs in which every
transfer has distinct endpoints: the total of all balances changes exactly by
net deposits minus net withdrawals, and such transfers leave it unchanged.
A self-transfer, which `processTransaction` accepts, breaks it (see the
counterexample): the destination update overwrites the debit, creating
money. -/
theorem conservation_distinct_transfers (bank bank' : Bank)
    (qts : List QueuedTransaction)
    (hnd : (bank.accounts.map Prod.fst).Nodup)
    (hne : ∀ qt ∈ qts, qt.ttype = "transfer" →
      qt.fromAccountID ≠ qt.toAccountID)
    (h : processSeqOk bank qts = some bank') :
    totalBalance bank'.accounts = totalBalance bank.accounts + netAmounts qts :=
  processSeqOk_total qts bank bank' hnd hne h

/-- C5 (amended): a committed transfer appends exactly two ledger entries,
the first for the source and the second for the destination, but BOTH carry
the source's resulting balance in `current_balance` — the Go code reuses
`newBalance` for the second insert, so the destination entry does not show
the destination's own resulting balance (see the counterexample). -/
theorem transfer_ledger_two_entries (bank : Bank) (qt : QueuedTransaction)
    (b bTo : ℚ) (hty : qt.ttype = "transfer")
    (hb : getBalance bank.accounts qt.fromAccountID = some b)
    (hbTo : getBalance bank.accounts qt.toAccountID = some bTo) :
    (processTransaction bank qt).2 = none ∧
    (processTransaction bank qt).1.ledger = bank.ledger ++
      [{ accountID := qt.fromAccountID, fromAccountID := qt.fromAccountID,
         toAccountID := qt.toAccountID, ttype := "transfer",
         amount := qt.amount, currentBalance := b - qt.amount },
       { accountID := qt.toAccountID, fromAccountID := qt.fromAccountID,
         toAccountID := qt.toAccountID, ttype := "transfer",
         amount := qt.amount, currentBalance := b - qt.amount }] := by
  rw [processTransaction_transfer_eq bank qt b bTo hty hb hbTo]
  exact ⟨rfl, by simp [mkLog, hty]⟩

/-- C6 (amended): the SQL side is atomic — on any error return the stored
balances are exactly the original ones, never partially updated — but the
MongoDB ledger lives outside the SQL transaction: the run only ever appends
to it, and entries appended before a later failure are not rolled back, so a
failed second insert or a failed commit leaves orphan ledger entries (see
the counterexample). -/
theorem balances_atomic_ledger_outside_tx (bank : Bank)
    (qt : QueuedTransaction) (i1 i2 c : Bool) :
    ((processTransactionF bank qt i1 i2 c).2.isSome →
      (processTransactionF bank qt i1 i2 c).1.accounts = bank.accounts)
    ∧ ∃ extra, (processTransactionF bank qt i1 i2 c).1.ledger =
        bank.ledger ++ extra :=
  ⟨fun h => processTransactionF_error_accounts bank qt i1 i2 c h,
   processTransactionF_ledger_extends bank qt i1 i2 c⟩

/-- C7: the consumer resolves every delivered message exactly once, and
acknowledges exactly when decoding succeeded and `processTransaction`
returned no error; every other outcome — malformed payload or any processing
error, `insufficient balance` included — is a reject with requeue. -/
theorem consumer_ack_iff_success (bank : Bank)
    (decoded : Option QueuedTransaction) (i1 i2 c : Bool) :
    ((handleDelivery bank decoded i1 i2 c).2 = AckResolution.ack ↔
      ∃ qt, decoded = some qt ∧
        (processTransactionF bank qt i1 i2 c).2 = none)
    ∧ ((handleDelivery bank decoded i1 i2 c).2 = AckResolution.nackRequeue ↔
      ¬ ∃ qt, decoded = some qt ∧
        (processTransactionF bank qt i1 i2 c).2 = none) := by
  cases decoded with
  | none => simp [handleDelivery]
  | some qt =>
    rcases hres : processTransactionF bank qt i1 i2 c with ⟨b', e⟩
    cases e <;> simp [handleDelivery, hres]

/-- C8 (amended): whenever the `POST /transaction` handler rejects a request
nothing is published, but the handler never compares `from_account_id` with
`to_account_id`: a transfer between identical ids that names an existing
account with balance at least the (positive) amount passes every check and
is published. -/
theorem endpoint_validation_no_distinct_check (bank : Bank)
    (qt : QueuedTransaction) :
    ((postTransaction bank qt).1 ≠ HttpResult.accepted →
      (postTransaction bank qt).2 = false)
    ∧ (qt.ttype = "transfer" → qt.fromAccountID = qt.toAccountID →
      0 < qt.amount →
      ∀ b, getBalance bank.accounts qt.toAccountID = some b →
      ¬ b < qt.amount →
      postTransaction bank qt = (HttpResult.accepted, true)) := by
  constructor
  · intro hna
    rcases postTransaction_published_accepted bank qt with h | h
    · exact absurd (by rw [h]) hna
    · exact h
  · intro hty hself hamt b hb hge
    simp [postTransaction, hty, hself, hb, hge, not_le.mpr hamt]

/-- C9: a self-transfer naming an existing account commits successfully and
leaves the account's stored balance at `b + amount`: the destination
`UPDATE` (credit) overwrites the source `UPDATE` (debit) on the same row. -/
theorem self_transfer_commits_credit (bank : Bank)
    (qt : QueuedTransaction) (b : ℚ) (hty : qt.ttype = "transfer")
    (hself : qt.fromAccountID = qt.toAccountID)
    (hb : getBalance bank.accounts qt.fromAccountID = some b) :
    (processTransaction bank qt).2 = none ∧
    getBalance (processTransaction bank qt).1.accounts qt.fromAccountID =
      some (b + qt.amount) := by
  have hbTo : getBalance bank.accounts qt.toAccountID = some b := hself ▸ hb
  rw [processTransaction_transfer_eq bank qt b b hty hb hbTo]
  refine ⟨rfl, ?_⟩
  rw [hself]
  exact getBalance_setBalance_self _ _ _ _
    (getBalance_setBalance_self _ _ _ _ (hself ▸ hb))

/-- C10: a withdrawal posted over HTTP with the (naturally empty)
`to_account_id` hits the handler's first existence check, which queries the
`users` table for `to_account_id` instead of `account_id`; when no row has an
empty `account_id` the handler answers 404 `Account not found` and publishes
nothing, regardless of the balance of the account named by `account_id`. -/
theorem withdrawal_unreachable_via_http (bank : Bank)
    (qt : QueuedTransaction)
    (hty : qt.ttype = "withdrawal") (hto : qt.toAccountID = "")
    (hacct : qt.accountID ≠ "") (hamt : 0 < qt.amount)
    (hempty : getBalance bank.accounts "" = none) :
    postTransaction bank qt = (HttpResult.notFound "Account not found", false) := by
  simp [postTransaction, hty, hacct, hto, hempty, not_le.mpr hamt]

/-! Counterexamples: closed runs on concrete states that refute claims as frozen. -/

theorem nonneg_invariant_counterexample :
    NonNeg { accounts := [("A", 50), ("B", 0)], ledger := [] } ∧
    (processTransaction { accounts := [("A", 50), ("B", 0)], ledger := [] }
      { fromAccountID := "A", toAccountID := "B", ttype := "transfer",
        amount := 100 }).2 = none ∧
    ¬ NonNeg (processTransaction { accounts := [("A", 50), ("B", 0)], ledger := [] }
      { fromAccountID := "A", toAccountID := "B", ttype := "transfer",
        amount := 100 }).1 := by
  refine ⟨?_, ?_, ?_⟩
  · intro p hp
    simp only [List.mem_cons, List.not_mem_nil, or_false] at hp
    rcases hp with rfl | rfl <;> norm_num
  · simp [processTransaction, processTransactionF, mutate, mkLog, getBalance, setBalance]
  · intro hc
    have := hc ("A", -50) (by
      simp [processTransaction, processTransactionF, mutate, mkLog, getBalance, setBalance]
      norm_num)
    norm_num at this

theorem transfer_insufficiency_counterexample :
    (10 : ℚ) < 30 ∧
    processTransaction { accounts := [("C", 10), ("D", 5)], ledger := [] }
      { fromAccountID := "C", toAccountID := "D", ttype := "transfer",
        amount := 30 } =
    ({ accounts := [("C", -20), ("D", 35)],
       ledger := [{ accountID := "C", fromAccountID := "C", toAccountID := "D",
                    ttype := "transfer", amount := 30, currentBalance := -20 },
                  { accountID := "D", fromAccountID := "C", toAccountID := "D",
                    ttype := "transfer", amount := 30, currentBalance := -20 }] },
     none) := by
  constructor
  · norm_num
  · simp [processTransaction, processTransactionF, mutate, mkLog, getBalance, setBalance]
    norm_num


theorem conservation_self_transfer_counterexample :
    (processTransaction { accounts := [("A", 100)], ledger := [] }
      { fromAccountID := "A", toAccountID := "A", ttype := "transfer",
        amount := 50 }).2 = none ∧
    totalBalance (processTransaction { accounts := [("A", 100)], ledger := [] }
      { fromAccountID := "A", toAccountID := "A", ttype := "transfer",
        amount := 50 }).1.accounts = 150 ∧
    totalBalance [("A", (100 : ℚ))] = 100 ∧
    netAmounts [({ fromAccountID := "A", toAccountID := "A",
                   ttype := "transfer", amount := 50 } : QueuedTransaction)] = 0 := by
  refine ⟨?_, ?_, ?_, ?_⟩
  · simp [processTransaction, processTransactionF, mutate, mkLog, getBalance, setBalance]
  · simp [processTransaction, processTransactionF, mutate, mkLog, getBalance,
      setBalance, totalBalance] <;> norm_num
  · simp [totalBalance]
  · simp [netAmounts, netAmount]

theorem transfer_ledger_balance_counterexample :
    (processTransaction { accounts := [("A", 150), ("B", 0)], ledger := [] }
      { fromAccountID := "A", toAccountID := "B", ttype := "transfer",
        amount := 100 }).1.ledger =
      [{ accountID := "A", fromAccountID := "A", toAccountID := "B",
         ttype := "transfer", amount := 100, currentBalance := 50 },
       { accountID := "B", fromAccountID := "A", toAccountID := "B",
         ttype := "transfer", amount := 100, currentBalance := 50 }] ∧
    getBalance (processTransaction { accounts := [("A", 150), ("B", 0)], ledger := [] }
      { fromAccountID := "A", toAccountID := "B", ttype := "transfer",
        amount := 100 }).1.accounts "B" = some 100 ∧
    (50 : ℚ) ≠ 100 := by
  refine ⟨?_, ?_, ?_⟩
  · simp [processTransaction, processTransactionF, mutate, mkLog, getBalance,
      setBalance] <;> norm_num
  · simp [processTransaction, processTransactionF, mutate, mkLog, getBalance, setBalance]
  · norm_num

theorem ledger_orphan_counterexample :
    processTransactionF { accounts := [("A", 100), ("B", 0)], ledger := [] }
      { fromAccountID := "A", toAccountID := "B", ttype := "transfer",
        amount := 40 } true false true =
    ({ accounts := [("A", 100), ("B", 0)],
       ledger := [{ accountID := "A", fromAccountID := "A", toAccountID := "B",
                    ttype := "transfer", amount := 40, currentBalance := 60 }] },
     some "ledger insert failed") := by
  simp [processTransactionF, mutate, mkLog, getBalance, setBalance] <;> norm_num

theorem self_transfer_published_counterexample :
    postTransaction { accounts := [("A", 100)], ledger := [] }
      { fromAccountID := "A", toAccountID := "A", ttype := "transfer",
        amount := 50 } = (HttpResult.accepted, true) := by
  simp [postTransaction, getBalance] <;> norm_num


/-! Witness theorems: each applies its claim theorem at one concrete input. -/

theorem nonneg_no_transfer_invariant_witness :
    NonNeg { accounts := [("A", (5 + 3 : ℚ))],
             ledger := [{ accountID := "A", ttype := "deposit", amount := 3,
                          currentBalance := 5 + 3 }] } :=
  nonneg_no_transfer_invariant
    { accounts := [("A", 5)], ledger := [] }
    { accounts := [("A", 5 + 3)],
      ledger := [{ accountID := "A", ttype := "deposit", amount := 3,
                   currentBalance := 5 + 3 }] }
    [{ accountID := "A", ttype := "deposit", amount := 3 }]
    (by simp) (by simp)
    (by simp [NonNeg])
    (by simp [processSeqOk, processTransaction, processTransactionF, mutate,
      mkLog, getBalance, setBalance])


theorem transfer_no_insufficiency_check_witness :
    (processTransaction { accounts := [("C", 10), ("D", 5)], ledger := [] }
      { fromAccountID := "C", toAccountID := "D", ttype := "transfer",
        amount := 30 }).2 = none ∧
    getBalance (processTransaction { accounts := [("C", 10), ("D", 5)], ledger := [] }
      { fromAccountID := "C", toAccountID := "D", ttype := "transfer",
        amount := 30 }).1.accounts "C" = some (10 - 30) ∧
    getBalance (processTransaction { accounts := [("C", 10), ("D", 5)], ledger := [] }
      { fromAccountID := "C", toAccountID := "D", ttype := "transfer",
        amount := 30 }).1.accounts "D" = some (5 + 30) :=
  transfer_no_insufficiency_check
    { accounts := [("C", 10), ("D", 5)], ledger := [] }
    { fromAccountID := "C", toAccountID := "D", ttype := "transfer",
      amount := 30 }
    10 5 rfl (by simp) (by simp [getBalance]) (by simp [getBalance])

theorem withdrawal_semantics_witness :
    processTransaction { accounts := [("E", 150)], ledger := [] }
      { accountID := "E", ttype := "withdrawal", amount := 200 } =
      ({ accounts := [("E", 150)], ledger := [] }, some "insufficient balance") :=
  (withdrawal_semantics { accounts := [("E", 150)], ledger := [] }
    { accountID := "E", ttype := "withdrawal", amount := 200 } 150 rfl
    (by simp [getBalance])).1 (by decide)

theorem conservation_distinct_transfers_witness :
    totalBalance [("A", (10 - 6 : ℚ)), ("B", (1 + 6 : ℚ))] =
      totalBalance [("A", (10 : ℚ)), ("B", (1 : ℚ))] +
      netAmounts [({ fromAccountID := "A", toAccountID := "B",
                     ttype := "transfer", amount := 6 } : QueuedTransaction)] :=
  conservation_distinct_transfers
    { accounts := [("A", 10), ("B", 1)], ledger := [] }
    { accounts := [("A", 10 - 6), ("B", 1 + 6)],
      ledger := [{ accountID := "A", fromAccountID := "A", toAccountID := "B",
                   ttype := "transfer", amount := 6, currentBalance := 10 - 6 },
                 { accountID := "B", fromAccountID := "A", toAccountID := "B",
                   ttype := "transfer", amount := 6, currentBalance := 10 - 6 }] }
    [{ fromAccountID := "A", toAccountID := "B", ttype := "transfer",
       amount := 6 }]
    (by simp) (by simp)
    (by simp [processSeqOk, processTransaction, processTransactionF, mutate,
      mkLog, getBalance, setBalance])

theorem transfer_ledger_two_entries_witness :
    (processTransaction { accounts := [("F", 150), ("G", 0)], ledger := [] }
      { fromAccountID := "F", toAccountID := "G", ttype := "transfer",
        amount := 100 }).2 = none ∧
    (processTransaction { accounts := [("F", 150), ("G", 0)], ledger := [] }
      { fromAccountID := "F", toAccountID := "G", ttype := "transfer",
        amount := 100 }).1.ledger = [] ++
      [{ accountID := "F", fromAccountID := "F", toAccountID := "G",
         ttype := "transfer", amount := 100, currentBalance := 150 - 100 },
       { accountID := "G", fromAccountID := "F", toAccountID := "G",
         ttype := "transfer", amount := 100, currentBalance := 150 - 100 }] :=
  transfer_ledger_two_entries
    { accounts := [("F", 150), ("G", 0)], ledger := [] }
    { fromAccountID := "F", toAccountID := "G", ttype := "transfer",
      amount := 100 }
    150 0 rfl (by simp [getBalance]) (by simp [getBalance])

theorem balances_atomic_ledger_outside_tx_witness :
    (processTransactionF { accounts := [("H", 30)], ledger := [] }
      { accountID := "H", ttype := "deposit", amount := 5 }
      true true false).1.accounts = [("H", (30 : ℚ))] :=
  (balances_atomic_ledger_outside_tx { accounts := [("H", 30)], ledger := [] }
    { accountID := "H", ttype := "deposit", amount := 5 } true true false).1
    (by simp [processTransactionF, mutate, mkLog, getBalance, setBalance])

theorem consumer_ack_iff_success_witness :
    (handleDelivery { accounts := [("K", 10)], ledger := [] }
      (some { accountID := "K", ttype := "deposit", amount := 5 })
      true true true).2 = AckResolution.ack :=
  ((consumer_ack_iff_success { accounts := [("K", 10)], ledger := [] }
    (some { accountID := "K", ttype := "deposit", amount := 5 })
    true true true).1).mpr
    ⟨{ accountID := "K", ttype := "deposit", amount := 5 }, rfl,
      by simp [processTransactionF, mutate, mkLog, getBalance, setBalance]⟩

theorem endpoint_validation_no_distinct_check_witness :
    (postTransaction { accounts := [("L", 100)], ledger := [] }
      { accountID := "L", ttype := "withdrawal", amount := 0 }).2 = false :=
  (endpoint_validation_no_distinct_check
    { accounts := [("L", 100)], ledger := [] }
    { accountID := "L", ttype := "withdrawal", amount := 0 }).1
    (by simp [postTransaction])

theorem self_transfer_commits_credit_witness :
    (processTransaction { accounts := [("M", 20)], ledger := [] }
      { fromAccountID := "M", toAccountID := "M", ttype := "transfer",
        amount := 7 }).2 = none ∧
    getBalance (processTransaction { accounts := [("M", 20)], ledger := [] }
      { fromAccountID := "M", toAccountID := "M", ttype := "transfer",
        amount := 7 }).1.accounts "M" = some (20 + 7) :=
  self_transfer_commits_credit
    { accounts := [("M", 20)], ledger := [] }
    { fromAccountID := "M", toAccountID := "M", ttype := "transfer",
      amount := 7 }
    20 rfl rfl (by simp [getBalance])

theorem withdrawal_unreachable_via_http_witness :
    postTransaction { accounts := [("X", 500)], ledger := [] }
      { accountID := "X", ttype := "withdrawal", amount := 50 } =
      (HttpResult.notFound "Account not found", false) :=
  withdrawal_unreachable_via_http { accounts := [("X", 500)], ledger := [] }
    { accountID := "X", ttype := "withdrawal", amount := 50 }
    rfl rfl (by simp) (by decide) (by simp [getBalance])

end GoBankApi
